import Mathlib

/-!
# The placeholder port device of CEmu (`core/cxxx.c`)

A shallow embedding of `cxxx_read`, `cxxx_write` and `init_cxxx`.  The global
`cxxx` of the C file becomes an explicit state argument; every function that
can touch the global takes the state and hands back the state it leaves.
Machine integers are natural numbers, reduced `% 2 ^ w` where C converts.

The register array has 0x80 entries.  The two handlers subscript it with
`pio & 0xFF` and no bounds check; a subscript outside the array is an access C
leaves undefined, and the handlers return `none` there.
-/

namespace CEmu

/-- Modelled from the spec: the declared capacity of the register array of
`cxxx_state_t` (the struct is declared in `core/cxxx.h`, which is not part of
the tree).  The spec gives the reference device 0x80 byte registers, and the
loop of `init_cxxx` runs over exactly that many. -/
def CXXX_PORTS : Nat := 0x80

/-- Modelled from the spec: `cxxx_state_t`, declared in `core/cxxx.h`, which is
not part of the tree.  Its one member is the byte array `ports`, with the 0x80
entries the spec gives the reference device. -/
structure cxxx_state_t where
  ports : List Nat
  size : ports.length = CXXX_PORTS

/-- The load `cxxx.ports[i]` for a subscript inside the array. -/
def ports_load (cxxx : cxxx_state_t) (i : Nat) (h : i < CXXX_PORTS) : Nat :=
  cxxx.ports.get ⟨i, by rw [cxxx.size]; exact h⟩

/-- The store `cxxx.ports[i] = v` for a subscript inside the array. -/
def ports_store (cxxx : cxxx_state_t) (i v : Nat) : cxxx_state_t :=
  { ports := cxxx.ports.set i v
    size := by rw [List.length_set]; exact cxxx.size }

/-- The local `uint8_t addr = pio & 0xFF;` of `cxxx_read` and `cxxx_write`. -/
def addr (pio : Nat) : Nat := (pio &&& 0xFF) % 2 ^ 8

/-- The function `uint8_t cxxx_read(const uint16_t pio)`: the byte read and the
state the call leaves behind; `none` when `addr` is outside the array. -/
def cxxx_read (pio : Nat) (cxxx : cxxx_state_t) : Option (Nat × cxxx_state_t) :=
  if h : addr pio < CXXX_PORTS then
    let read_byte := ports_load cxxx (addr pio) h
    some (read_byte, cxxx)
  else none

/-- The function `void cxxx_write(const uint16_t pio, const uint8_t byte)`: the
state the call leaves behind; the byte argument is converted to `uint8_t` on
entry; `none` when `addr` is outside the array. -/
def cxxx_write (pio byte : Nat) (cxxx : cxxx_state_t) : Option cxxx_state_t :=
  if addr pio < CXXX_PORTS then some (ports_store cxxx (addr pio) (byte % 2 ^ 8))
  else none

/-- Modelled from the spec: `eZ80portrange_t`, the pair of handlers a device
hands to the port framework (declared in a header that is not part of the
tree); the members are the two function pointers `read_in` and `write_out`. -/
structure eZ80portrange_t where
  read_in : Nat → cxxx_state_t → Option (Nat × cxxx_state_t)
  write_out : Nat → Nat → cxxx_state_t → Option cxxx_state_t

/-- The loop `for(i = 0; i<0x80; i++) { cxxx.ports[i] = 0; }` of `init_cxxx`;
every subscript it uses is inside the array. -/
def init_cxxx_loop (cxxx : cxxx_state_t) : cxxx_state_t :=
  (List.range 0x80).foldl (fun st i => ports_store st i 0) cxxx

/-- The function `eZ80portrange_t init_cxxx()`: the handler pair returned, and
the state the call leaves behind. -/
def init_cxxx (cxxx : cxxx_state_t) : eZ80portrange_t × cxxx_state_t :=
  let cxxx := init_cxxx_loop cxxx
  let device : eZ80portrange_t :=
    { read_in := cxxx_read
      write_out := cxxx_write }
  (device, cxxx)

/-- The global `cxxx_state_t cxxx;` at program start: static storage, all
bytes zero. -/
def cxxx_static : cxxx_state_t :=
  { ports := List.replicate 0x80 0
    size := List.length_replicate 0x80 0 }

/-- A freshly initialized device: `init_cxxx` run on the program-start state. -/
def cxxx_fresh : cxxx_state_t := (init_cxxx cxxx_static).2

/-- A finite sequence of `cxxx_write(pio, byte)` calls, run left to right;
`none` as soon as one of them stores outside the array. -/
def cxxx_writes : List (Nat × Nat) → cxxx_state_t → Option cxxx_state_t
  | [], cxxx => some cxxx
  | w :: ws, cxxx => (cxxx_write w.1 w.2 cxxx).bind (cxxx_writes ws)

/-! ## The port bus and its watch table

The framework that dispatches port accesses to a device (`core/port.c`, the
port table of the debugger) is not part of the tree; what follows is taken
from the design document, sections 2, 3, 4.1 and 4.3.
-/

/-- Modelled from the spec: the Device contract of the design document, a unit
owning its state `σ` and answering `read(address) -> byte`,
`write(address, byte)` and `reset()`; the framework code that declares it is
not part of the tree. -/
structure Device (σ : Type) where
  read : Nat → σ → Nat × σ
  write : Nat → Nat → σ → σ
  reset : σ → σ

/-- Modelled from the spec: a Port Watch Entry, the per-address record
`{freeze, frozenValue, watchRead, watchWrite}` of the Port Watch Table, which
the framework keeps outside the device (its code is not part of the tree). -/
structure PortWatchEntry where
  freeze : Bool
  frozenValue : Nat
  watchRead : Bool
  watchWrite : Bool

/-- Modelled from the spec: the Port Bus with one device bound.  It holds the
device, the state the device owns, and the watch table keyed by the full port
address, every entry defaulting to all-false and zero.  The bus code is not
part of the tree. -/
structure PortBus (σ : Type) where
  device : Device σ
  state : σ
  watch : Nat → PortWatchEntry

/-- Modelled from the spec: the unmapped sentinel a bus read answers with on a
slot no device claims (the bus code is not part of the tree). -/
def UNMAPPED : Nat := 0xFF

/-- Modelled from the spec: binding the reference device at emulator
initialization.  The handlers are the pair `init_cxxx` returns and the reset
is `init_cxxx` itself; on a slot outside the 0x80 registers the device claims,
the bus answers a read with the unmapped sentinel and discards a write.  The
watch table starts empty.  The binding code is not part of the tree. -/
def PortBus.bind (cxxx : cxxx_state_t) : PortBus cxxx_state_t :=
  { device :=
      { read := fun pio st => ((init_cxxx cxxx).1.read_in pio st).getD (UNMAPPED, st)
        write := fun pio byte st => ((init_cxxx cxxx).1.write_out pio byte st).getD st
        reset := fun st => (init_cxxx st).2 }
    state := (init_cxxx cxxx).2
    watch := fun _ =>
      { freeze := false, frozenValue := 0, watchRead := false, watchWrite := false } }

/-- Modelled from the spec: `setFreeze(address, value)` of the Port Watch
Table marks that exact address frozen with the given value (code not part of
the tree). -/
def PortBus.setFreeze {σ : Type} (address value : Nat) (b : PortBus σ) : PortBus σ :=
  { b with
    watch := fun a =>
      if a = address then { b.watch a with freeze := true, frozenValue := value }
      else b.watch a }

/-- Modelled from the spec: `clearFreeze(address)` of the Port Watch Table
removes the override of that address (code not part of the tree). -/
def PortBus.clearFreeze {σ : Type} (address : Nat) (b : PortBus σ) : PortBus σ :=
  { b with
    watch := fun a =>
      if a = address then { b.watch a with freeze := false }
      else b.watch a }

/-- Modelled from the spec: `read(portAddress)` of the Port Bus obtains the
raw value from the bound device, then consults the watch table, which
overrides the value returned when the address is frozen and never touches the
device state (code not part of the tree). -/
def PortBus.read {σ : Type} (portAddress : Nat) (b : PortBus σ) : Nat × PortBus σ :=
  let raw := b.device.read portAddress b.state
  let entry := b.watch portAddress
  (if entry.freeze then entry.frozenValue else raw.1, { b with state := raw.2 })

/-- Modelled from the spec: `write(portAddress, value)` of the Port Bus
consults the watch table first; a write to a frozen address is not forwarded
to the device, any other write is forwarded to the device handler (code not
part of the tree). -/
def PortBus.write {σ : Type} (portAddress value : Nat) (b : PortBus σ) : PortBus σ :=
  if (b.watch portAddress).freeze then b
  else { b with state := b.device.write portAddress value b.state }

/-- A finite sequence of bus writes `write(address, value)`, run left to right. -/
def PortBus.writes {σ : Type} (ws : List (Nat × Nat)) (b : PortBus σ) : PortBus σ :=
  ws.foldl (fun st w => PortBus.write w.1 w.2 st) b

/-! ## Lemmas on the register array -/

theorem cxxx_state_t.eq_of_ports {s t : cxxx_state_t} (h : s.ports = t.ports) : s = t := by
  cases s; cases t; cases h; rfl

theorem addr_eq_mod (pio : Nat) : addr pio = pio % 256 := by
  have h : pio &&& 0xFF = pio % 2 ^ 8 := Nat.and_pow_two_sub_one_eq_mod pio 8
  unfold addr
  rw [h]
  omega

theorem mask_eq_addr (pio : Nat) : pio &&& 0xFF = addr pio := by
  have h : pio &&& 0xFF = pio % 2 ^ 8 := Nat.and_pow_two_sub_one_eq_mod pio 8
  rw [addr_eq_mod, h]
  norm_num

theorem addr_lt (pio : Nat) : addr pio < 256 := by
  rw [addr_eq_mod]; omega

theorem ports_load_congr (s : cxxx_state_t) {i j : Nat} (hi : i < CXXX_PORTS)
    (hj : j < CXXX_PORTS) (h : i = j) : ports_load s i hi = ports_load s j hj := by
  subst h; rfl

theorem ports_load_store_same (s : cxxx_state_t) (i v : Nat) (h : i < CXXX_PORTS) :
    ports_load (ports_store s i v) i h = v := by
  simp [ports_load, ports_store]

theorem ports_load_store_other (s : cxxx_state_t) (i j v : Nat) (h : j < CXXX_PORTS)
    (hne : i ≠ j) : ports_load (ports_store s i v) j h = ports_load s j h := by
  simp [ports_load, ports_store, List.getElem_set_ne hne]

theorem cxxx_state_t.eq_of_load {s t : cxxx_state_t}
    (h : ∀ (i : Nat) (hi : i < CXXX_PORTS), ports_load s i hi = ports_load t i hi) :
    s = t := by
  apply cxxx_state_t.eq_of_ports
  apply List.ext_getElem
  · rw [s.size, t.size]
  · intro n h₁ _
    have hn : n < CXXX_PORTS := by rw [← s.size]; exact h₁
    simpa [ports_load] using h n hn

/-- What the first `n` rounds of the initialization loop leave in cell `j`. -/
theorem ports_load_foldl_range (n : Nat) (s : cxxx_state_t) (j : Nat) (h : j < CXXX_PORTS) :
    ports_load ((List.range n).foldl (fun st i => ports_store st i 0) s) j h
      = if j < n then 0 else ports_load s j h := by
  induction n with
  | zero => simp
  | succ n ih =>
    rw [List.range_succ, List.foldl_append]
    simp only [List.foldl_cons, List.foldl_nil]
    by_cases hjn : n = j
    · subst hjn
      rw [ports_load_store_same]
      simp
    · rw [ports_load_store_other _ _ _ _ _ hjn, ih]
      by_cases hlt : j < n
      · have : j < n + 1 := by omega
        simp [hlt, this]
      · have : ¬ j < n + 1 := by omega
        simp [hlt, this]

theorem ports_load_init_cxxx (s : cxxx_state_t) (j : Nat) (h : j < CXXX_PORTS) :
    ports_load (init_cxxx s).2 j h = 0 := by
  simp only [init_cxxx, init_cxxx_loop]
  rw [ports_load_foldl_range 0x80 s j h]
  exact if_pos h

/-- Whatever the prior state, `init_cxxx` leaves the freshly initialized one. -/
theorem init_cxxx_eq_fresh (s : cxxx_state_t) : (init_cxxx s).2 = cxxx_fresh := by
  apply cxxx_state_t.eq_of_load
  intro i hi
  unfold cxxx_fresh
  rw [ports_load_init_cxxx, ports_load_init_cxxx]

theorem cxxx_read_in_range (pio : Nat) (s : cxxx_state_t) (h : addr pio < CXXX_PORTS) :
    cxxx_read pio s = some (ports_load s (addr pio) h, s) := by
  unfold cxxx_read
  rw [dif_pos h]

theorem cxxx_write_in_range (pio byte : Nat) (s : cxxx_state_t) (h : addr pio < CXXX_PORTS) :
    cxxx_write pio byte s = some (ports_store s (addr pio) (byte % 2 ^ 8)) := by
  unfold cxxx_write
  rw [if_pos h]

theorem lt_ports_of_mask {pio : Nat} (h : pio &&& 0xFF < 0x80) : addr pio < CXXX_PORTS := by
  rw [mask_eq_addr] at h
  exact h

/-- Inside the declared registers the aliases of one slot behave as one port:
both read the same byte, and a byte written through one is read back through
the other. -/
theorem cxxx_alias_in_range (a b v : Nat) (s : cxxx_state_t)
    (hab : a &&& 0xFF = b &&& 0xFF) (hv : v < 256) (ha : a &&& 0xFF < 0x80) :
    cxxx_read a s = cxxx_read b s ∧
      ((cxxx_write a v s).bind (cxxx_read b)).map Prod.fst = some v := by
  have hadd : addr a = addr b := by rw [← mask_eq_addr, ← mask_eq_addr, hab]
  have hla : addr a < CXXX_PORTS := lt_ports_of_mask ha
  have hlb : addr b < CXXX_PORTS := hadd ▸ hla
  refine ⟨?_, ?_⟩
  · rw [cxxx_read_in_range a s hla, cxxx_read_in_range b s hlb,
      ports_load_congr s hla hlb hadd]
  · rw [cxxx_write_in_range a v s hla, Option.some_bind, cxxx_read_in_range b _ hlb,
      ports_load_congr _ hlb hla hadd.symm, ports_load_store_same]
    simp [Nat.mod_eq_of_lt hv]

/-- Inside the declared registers a write followed by a read of the same port
returns the byte written. -/
theorem cxxx_round_trip_in_range (p v : Nat) (s : cxxx_state_t) (hv : v < 256)
    (hp : p &&& 0xFF < 0x80) :
    ((cxxx_write p v s).bind (cxxx_read p)).map Prod.fst = some v :=
  (cxxx_alias_in_range p p v s rfl hv hp).2

/-- A sequence of writes that all stay inside the declared registers runs to
the end, and `init_cxxx` afterwards leaves the freshly initialized state. -/
theorem cxxx_writes_in_range (ws : List (Nat × Nat)) (s : cxxx_state_t)
    (hws : ∀ w ∈ ws, addr w.1 < CXXX_PORTS) :
    ∃ t, cxxx_writes ws s = some t ∧ (init_cxxx t).2 = cxxx_fresh := by
  induction ws generalizing s with
  | nil => exact ⟨s, rfl, init_cxxx_eq_fresh s⟩
  | cons w ws ih =>
    have hw : addr w.1 < CXXX_PORTS := hws w (List.mem_cons_self w ws)
    have hrest : ∀ x ∈ ws, addr x.1 < CXXX_PORTS :=
      fun x hx => hws x (List.mem_cons_of_mem w hx)
    obtain ⟨t, ht, hfresh⟩ := ih (ports_store s (addr w.1) (w.2 % 2 ^ 8)) hrest
    refine ⟨t, ?_, hfresh⟩
    show (cxxx_write w.1 w.2 s).bind (cxxx_writes ws) = some t
    rw [cxxx_write_in_range w.1 w.2 s hw, Option.some_bind, ht]

theorem PortBus.watch_write {σ : Type} (a x : Nat) (b : PortBus σ) :
    (PortBus.write a x b).watch = b.watch := by
  unfold PortBus.write
  split <;> rfl

theorem PortBus.device_write {σ : Type} (a x : Nat) (b : PortBus σ) :
    (PortBus.write a x b).device = b.device := by
  unfold PortBus.write
  split <;> rfl

theorem PortBus.watch_writes {σ : Type} (ws : List (Nat × Nat)) (b : PortBus σ) :
    (PortBus.writes ws b).watch = b.watch := by
  induction ws generalizing b with
  | nil => rfl
  | cons w ws ih =>
    show (PortBus.writes ws (PortBus.write w.1 w.2 b)).watch = b.watch
    rw [ih, PortBus.watch_write]

theorem PortBus.write_frozen {σ : Type} (p x : Nat) (b : PortBus σ)
    (h : (b.watch p).freeze = true) : PortBus.write p x b = b := by
  unfold PortBus.write
  rw [if_pos h]

theorem PortBus.writes_frozen {σ : Type} (p : Nat) (xs : List Nat) (b : PortBus σ)
    (h : (b.watch p).freeze = true) :
    PortBus.writes (xs.map (fun x => (p, x))) b = b := by
  induction xs with
  | nil => rfl
  | cons x xs ih =>
    show PortBus.writes (xs.map (fun x => (p, x))) (PortBus.write p x b) = b
    rw [PortBus.write_frozen p x b h, ih]

/-! ## The device handlers -/

/-- C4 (reset zeroes the registers and is idempotent): from any prior state,
after `init_cxxx` each of the 0x80 registers holds 0, `cxxx_read(p)` returns 0
for every port address whose low byte is below 0x80, and a second `init_cxxx`
leaves the state as the first one left it. -/
theorem init_cxxx_zeroes (s : cxxx_state_t) :
    (∀ (i : Nat) (hi : i < 0x80), ports_load (init_cxxx s).2 i hi = 0) ∧
      (∀ p : Nat, (p &&& 0xFF) < 0x80 →
        cxxx_read p (init_cxxx s).2 = some (0, (init_cxxx s).2)) ∧
      (init_cxxx (init_cxxx s).2).2 = (init_cxxx s).2 := by
  refine ⟨?_, ?_, ?_⟩
  · intro i hi
    exact ports_load_init_cxxx s i hi
  · intro p hp
    rw [cxxx_read_in_range p _ (lt_ports_of_mask hp), ports_load_init_cxxx]
  · rw [init_cxxx_eq_fresh, init_cxxx_eq_fresh]

/-- Witness of C4: a device whose register 0x10 holds 7 reads 7 at port
`0xE010`, and reads 0 there after `init_cxxx`. -/
theorem init_cxxx_zeroes_witness :
    (0xE010 &&& 0xFF) < 0x80 ∧
      (cxxx_read 0xE010 (ports_store cxxx_static 0x10 7)).map Prod.fst = some 7 ∧
      cxxx_read 0xE010 (init_cxxx (ports_store cxxx_static 0x10 7)).2
        = some (0, (init_cxxx (ports_store cxxx_static 0x10 7)).2) :=
  ⟨by decide, by decide,
    (init_cxxx_zeroes (ports_store cxxx_static 0x10 7)).2.1 0xE010 (by decide)⟩

/-- C5 (offsets stay in the declared range), evaluated on the code: for the
port address `0x0080` the index computed is 0x80, which is not below the 0x80
declared registers, so `cxxx_write(0x0080, 0x42)` stores outside the array and
`cxxx_read(0x0080)` loads from outside it. -/
theorem addr_escapes_declared_ports :
    addr 0x0080 = 0x80 ∧ ¬ addr 0x0080 < CXXX_PORTS ∧
      cxxx_write 0x0080 0x42 cxxx_static = none ∧
      cxxx_read 0x0080 cxxx_static = none :=
  ⟨by decide, by decide, rfl, rfl⟩

/-- C6 (device registration result): the pair `init_cxxx` returns has
`cxxx_read` as `read_in` and `cxxx_write` as `write_out`, so a call through
either handler gives the result and the state of the direct call. -/
theorem init_cxxx_handlers (s t : cxxx_state_t) (pio byte : Nat) :
    (init_cxxx s).1.read_in = cxxx_read ∧
      (init_cxxx s).1.write_out = cxxx_write ∧
      (init_cxxx s).1.read_in pio t = cxxx_read pio t ∧
      (init_cxxx s).1.write_out pio byte t = cxxx_write pio byte t :=
  ⟨rfl, rfl, rfl, rfl⟩

/-- C7 (freeze isolation): after `setFreeze(p, v)` a bus read of `p` returns
`v` whatever writes follow; writes to `p` leave the device state as it was;
after `clearFreeze(p)` a bus read of `p` returns what the device handler reads
from the live device state. -/
theorem freeze_isolation {σ : Type} (b : PortBus σ) (p v : Nat) (ws : List (Nat × Nat))
    (xs : List Nat) :
    (PortBus.read p (PortBus.writes ws (PortBus.setFreeze p v b))).1 = v ∧
      (PortBus.writes (xs.map (fun x => (p, x))) (PortBus.setFreeze p v b)).state = b.state ∧
      (PortBus.read p (PortBus.clearFreeze p (PortBus.writes ws (PortBus.setFreeze p v b)))).1
        = ((PortBus.writes ws (PortBus.setFreeze p v b)).device.read p
            (PortBus.writes ws (PortBus.setFreeze p v b)).state).1 := by
  refine ⟨?_, ?_, ?_⟩
  · simp [PortBus.read, PortBus.watch_writes, PortBus.setFreeze]
  · rw [PortBus.writes_frozen p xs _ (by simp [PortBus.setFreeze])]
    rfl
  · simp [PortBus.read, PortBus.clearFreeze]

/-- C7 on the reference device: register 0x10 holds 0x42; after
`setFreeze(0x0010, 0x99)` and `write(0x0010, 0x01)` the bus reads 0x99 at
`0x0010`, and after `clearFreeze(0x0010)` it reads the live 0x42. -/
theorem freeze_isolation_witness :
    (PortBus.read 0x0010 (PortBus.writes [(0x0010, 0x01)]
        (PortBus.setFreeze 0x0010 0x99
          (PortBus.write 0x0010 0x42 (PortBus.bind cxxx_static))))).1 = 0x99 ∧
      (PortBus.read 0x0010 (PortBus.clearFreeze 0x0010 (PortBus.writes [(0x0010, 0x01)]
        (PortBus.setFreeze 0x0010 0x99
          (PortBus.write 0x0010 0x42 (PortBus.bind cxxx_static)))))).1 = 0x42 :=
  ⟨(freeze_isolation (PortBus.write 0x0010 0x42 (PortBus.bind cxxx_static))
      0x0010 0x99 [(0x0010, 0x01)] []).1, by decide⟩

end CEmu
